import Mathlib

/-!
# Verification of the dash-slicer reactive core

A shallow embedding of the parts of `dash_slicer/slicer.py` and
`dash_slicer/utils.py` that implement the rate limiter (debounce state
machine), the image-trace builder, the indicator-trace builder, the
external set-position handler, slice sampling/rescaling, thumbnail size
computation, the overlay compositor and the thumbnail-parameter
normalisation at construction.

Conventions:
* JavaScript numbers that only ever hold integers are modelled as `ℤ`/`ℕ`;
  other numeric values are modelled as `ℚ` (exact arithmetic in place of
  IEEE doubles).
* `dash_clientside.no_update` is modelled as `none`.
* The JS private object `window._slicer_ID` stores "no timeout" as `0` and
  tests it by falsiness, so `timeout : ℕ` with `0` meaning unset; fields
  that start as JS `undefined` are `Option`s.
* Python code that can raise is modelled with `Option` results
  (`none` = exception).
-/

namespace DashSlicer

/-- The static per-slicer `info` store built in `VolumeSlicer.__init__`
(slicer.py lines 214-230): `size`, `offset`, `stepsize` in the local
xyz order produced by `shape3d_to_size2d`, the axis, the slicer color,
the random `infoid` and the stored `thumbnail_size`. -/
structure SliceInfo where
  axis : ℤ
  sizeX : ℕ
  sizeY : ℕ
  sizeZ : ℕ
  offsetX : ℚ
  offsetY : ℚ
  offsetZ : ℚ
  stepX : ℚ
  stepY : ℚ
  stepZ : ℚ
  color : String
  infoid : ℕ
  thumbX : ℕ
  thumbY : ℕ
  deriving Repr, DecidableEq

/-- The environment `update_state` reads besides its Dash inputs: the
figure's current axis ranges (`figure.layout.xaxis.range` etc.) and the
plot size queried from the DOM (default estimate 400 x 400). -/
structure FigEnv where
  xrange : ℚ × ℚ
  yrange : ℚ × ℚ
  plotW : ℚ
  plotH : ℚ
  deriving Repr, DecidableEq

/-- The public (rate-limited) state dict published by `update_state`
(the `state` store; see the `state` property docstring). -/
structure CState where
  index : ℤ
  index_changed : Bool
  xrange : ℚ × ℚ
  yrange : ℚ × ℚ
  zpos : ℚ
  axis : ℤ
  color : String
  deriving Repr, DecidableEq

/-- Client-side mutable state of one slicer relevant to the rate limiter:
the private `window._slicer_ID` object (`timeout`, `last_index`,
`infoid`), the `dcc.Interval` timer (`n_intervals`, `disabled`) and the
slider value (the raw index). -/
structure PState where
  timeout : ℕ
  last_index : Option ℤ
  infoid : Option ℕ
  nIntervals : ℕ
  sliderValue : ℤ
  timerDisabled : Bool
  deriving Repr, DecidableEq

/-- `update_rate_limiting_info` (slicer.py lines 574-622). Inputs: which
Dash inputs triggered this call (a slider-value change, a graph relayout
whose `relayoutData` contains an `xaxis.range`/`yaxis.range` key), the
timer's `n_intervals`, the stored timeout and `performance.now()`.
Returns the new stored timeout and the value written to
`timer.disabled`. -/
def update_rate_limiting_info (sliderChanged graphLayoutChanged : Bool)
    (nIntervals timeout now : ℕ) : ℕ × Bool :=
  if sliderChanged then (now + 200, false)
  else if graphLayoutChanged then (now + 400, false)
  else if nIntervals = 0 then (now + 100, false)
  else if timeout = 0 then (timeout, true)
  else (timeout, false)

/-- The x view-range computation inside `update_state` (slicer.py lines
650-679): volume extent, figure range put in increasing order, inset by
2 plot pixels on each side (two sequential in-place updates in the JS),
then intersected with the volume extent. -/
def computeXrange (info : SliceInfo) (fig : FigEnv) : ℚ × ℚ :=
  let xrangeVol : ℚ × ℚ :=
    (info.offsetX - (1 / 2) * info.stepX,
     info.offsetX + ((info.sizeX : ℚ) - 1 / 2) * info.stepX)
  let lo := min fig.xrange.1 fig.xrange.2
  let hi := max fig.xrange.1 fig.xrange.2
  let lo' := lo + 2 * (hi - lo) / fig.plotW
  let hi' := hi - 2 * (hi - lo') / fig.plotW
  (max xrangeVol.1 lo', min xrangeVol.2 hi')

/-- The y view-range computation inside `update_state`, symmetric to
`computeXrange` but using the plot height. -/
def computeYrange (info : SliceInfo) (fig : FigEnv) : ℚ × ℚ :=
  let yrangeVol : ℚ × ℚ :=
    (info.offsetY - (1 / 2) * info.stepY,
     info.offsetY + ((info.sizeY : ℚ) - 1 / 2) * info.stepY)
  let lo := min fig.yrange.1 fig.yrange.2
  let hi := max fig.yrange.1 fig.yrange.2
  let lo' := lo + 2 * (hi - lo) / fig.plotH
  let hi' := hi - 2 * (hi - lo') / fig.plotH
  (max yrangeVol.1 lo', min yrangeVol.2 hi')

/-- `update_state` (slicer.py lines 630-711). On a timer tick: if no
timeout is pending or it has not expired, or fewer than 5 ticks have
passed (letting the axes settle), return `no_update`; otherwise clear
the timeout and commit a new public state built from the current slider
value, figure ranges and info, setting `index_changed` from the private
`last_index`/`infoid` and updating them. -/
def update_state (info : SliceInfo) (fig : FigEnv) (s : PState) (now : ℕ) :
    Option CState × PState :=
  if ¬(s.timeout ≠ 0 ∧ s.timeout ≤ now) then (none, s)
  else if s.nIntervals < 5 then (none, s)
  else
    let index := s.sliderValue
    let changed : Bool :=
      decide (s.last_index ≠ some index) || decide (s.infoid ≠ some info.infoid)
    let st : CState :=
      { index := index
        index_changed := changed
        xrange := computeXrange info fig
        yrange := computeYrange info fig
        zpos := info.offsetZ + (index : ℚ) * info.stepZ
        axis := info.axis
        color := info.color }
    (some st,
     { s with
        timeout := 0
        last_index := if changed then some index else s.last_index
        infoid := some info.infoid })

/-- The client-side events that drive the rate limiter: a slider move
(drag or external write), a graph relayout (flag: did `relayoutData`
contain an axis-range key), and a timer tick. Each carries its
`performance.now()` time in ms. -/
inductive Event where
  | slider (i : ℤ) (t : ℕ)
  | relayout (rangeChanged : Bool) (t : ℕ)
  | tick (t : ℕ)
  deriving Repr, DecidableEq

/-- One event processed to completion (the Dash callbacks it triggers, in
registration order). A slider move or relayout triggers only
`update_rate_limiting_info`; a timer tick first increments
`n_intervals`, then triggers `update_rate_limiting_info` and
`update_state`. Returns the new state and the commit, if any. -/
def step (info : SliceInfo) (fig : FigEnv) (s : PState) :
    Event → PState × Option CState
  | .slider i t =>
      let s1 : PState := { s with sliderValue := i }
      let r := update_rate_limiting_info true false s1.nIntervals s1.timeout t
      ({ s1 with timeout := r.1, timerDisabled := r.2 }, none)
  | .relayout rc t =>
      let r := update_rate_limiting_info false rc s.nIntervals s.timeout t
      ({ s with timeout := r.1, timerDisabled := r.2 }, none)
  | .tick t =>
      let s1 : PState := { s with nIntervals := s.nIntervals + 1 }
      let r := update_rate_limiting_info false false s1.nIntervals s1.timeout t
      let s2 : PState := { s1 with timeout := r.1, timerDisabled := r.2 }
      let u := update_state info fig s2 t
      (u.2, u.1)

/-- Process a list of events in order, collecting the committed states. -/
def run (info : SliceInfo) (fig : FigEnv) : PState → List Event → PState × List CState
  | s, [] => (s, [])
  | s, e :: es =>
      let r := step info fig s e
      let rest := run info fig r.1 es
      (rest.1, r.2.toList ++ rest.2)

/-- A drag burst (with its interleaved in-burst timer ticks), relative to
a pending deadline `d`: every event arrives strictly before the current
deadline expires, and each slider move pushes the deadline to its own
time plus `T_drag = 200` ms. Consecutive raw-index changes less than
200 ms apart satisfy this. -/
inductive BurstOk : ℕ → List Event → Prop where
  | nil (d : ℕ) : BurstOk d []
  | tick (d t : ℕ) (es : List Event) :
      t < d → BurstOk d es → BurstOk d (.tick t :: es)
  | slider (d : ℕ) (i : ℤ) (t : ℕ) (es : List Event) :
      t < d → BurstOk (t + 200) es → BurstOk d (.slider i t :: es)

/-- The deadline pending after a list of events, starting from `d`. -/
def finalDeadline (d : ℕ) : List Event → ℕ
  | [] => d
  | .slider _ t :: es => finalDeadline (t + 200) es
  | .relayout true t :: es => finalDeadline (t + 400) es
  | .relayout false _ :: es => finalDeadline d es
  | .tick _ :: es => finalDeadline d es

/-- The raw (slider) index after a list of events, starting from `i`. -/
def finalIndex (i : ℤ) : List Event → ℤ
  | [] => i
  | .slider j _ :: es => finalIndex j es
  | .relayout _ _ :: es => finalIndex i es
  | .tick _ :: es => finalIndex i es

lemma step_slider (info : SliceInfo) (fig : FigEnv) (s : PState) (i : ℤ) (t : ℕ) :
    step info fig s (.slider i t) =
      ({ s with sliderValue := i, timeout := t + 200, timerDisabled := false }, none) := by
  simp [step, update_rate_limiting_info]

lemma step_tick_pending (info : SliceInfo) (fig : FigEnv) (s : PState) (t : ℕ)
    (ht : t < s.timeout) :
    step info fig s (.tick t) =
      ({ s with nIntervals := s.nIntervals + 1, timerDisabled := false }, none) := by
  have h0 : s.timeout ≠ 0 := by omega
  have h1 : ¬ s.timeout ≤ t := by omega
  simp [step, update_rate_limiting_info, update_state, h0, h1]

lemma step_tick_idle (info : SliceInfo) (fig : FigEnv) (s : PState) (t : ℕ)
    (h0 : s.timeout = 0) :
    step info fig s (.tick t) =
      ({ s with nIntervals := s.nIntervals + 1, timerDisabled := true }, none) := by
  simp [step, update_rate_limiting_info, update_state, h0]

lemma step_tick_commit (info : SliceInfo) (fig : FigEnv) (s : PState) (t : ℕ)
    (h0 : s.timeout ≠ 0) (h1 : s.timeout ≤ t) (h2 : 5 ≤ s.nIntervals) :
    step info fig s (.tick t) =
      (let changed : Bool :=
        decide (s.last_index ≠ some s.sliderValue) || decide (s.infoid ≠ some info.infoid)
       ({ s with
            nIntervals := s.nIntervals + 1
            timerDisabled := false
            timeout := 0
            last_index := if changed then some s.sliderValue else s.last_index
            infoid := some info.infoid },
        some { index := s.sliderValue
               index_changed := changed
               xrange := computeXrange info fig
               yrange := computeYrange info fig
               zpos := info.offsetZ + (s.sliderValue : ℚ) * info.stepZ
               axis := info.axis
               color := info.color })) := by
  have h3 : ¬ s.nIntervals + 1 = 0 := by omega
  have h4 : ¬ s.nIntervals + 1 < 5 := by omega
  simp [step, update_rate_limiting_info, update_state, h0, h1, h3, h4]

lemma run_burst (info : SliceInfo) (fig : FigEnv) (es : List Event) (d : ℕ)
    (hb : BurstOk d es) :
    ∀ s : PState, s.timeout = d → 0 < d → 5 ≤ s.nIntervals →
      ∃ s', run info fig s es = (s', []) ∧
        s'.timeout = finalDeadline d es ∧
        s'.sliderValue = finalIndex s.sliderValue es ∧
        5 ≤ s'.nIntervals ∧ s'.last_index = s.last_index ∧ s'.infoid = s.infoid ∧
        0 < finalDeadline d es := by
  induction hb with
  | nil d =>
      intro s hto hd hn
      exact ⟨s, by simp [run, finalDeadline, finalIndex, hto, hd, hn]⟩
  | tick d t es ht _ ih =>
      intro s hto hd hn
      have hstep := step_tick_pending info fig s t (by omega)
      obtain ⟨s', h1, h2, h3, h4, h5, h6, h7⟩ :=
        ih { s with nIntervals := s.nIntervals + 1, timerDisabled := false }
          hto hd (by show 5 ≤ s.nIntervals + 1; omega)
      exact ⟨s', by simp [run, hstep, h1], by simpa [finalDeadline] using h2,
        by simpa [finalIndex] using h3, h4, h5, h6,
        by simpa [finalDeadline] using h7⟩
  | slider d i t es ht _ ih =>
      intro s hto hd hn
      have hstep := step_slider info fig s i t
      obtain ⟨s', h1, h2, h3, h4, h5, h6, h7⟩ :=
        ih { s with sliderValue := i, timeout := t + 200, timerDisabled := false }
          rfl (by omega) hn
      exact ⟨s', by simp [run, hstep, h1], by simpa [finalDeadline] using h2,
        by simpa [finalIndex] using h3, h4, h5, h6,
        by simpa [finalDeadline] using h7⟩

lemma run_silence (info : SliceInfo) (fig : FigEnv) (es : List Event) :
    ∀ s : PState, (∀ e ∈ es, ∃ t, e = Event.tick t) → s.timeout = 0 →
      ∃ s', run info fig s es = (s', []) ∧ s'.timeout = 0 ∧
        (es ≠ [] → s'.timerDisabled = true) := by
  induction es with
  | nil => intro s _ hto; exact ⟨s, by simp [run], hto, by simp⟩
  | cons e es ih =>
      intro s hticks hto
      obtain ⟨t, rfl⟩ := hticks e (by simp)
      have hstep := step_tick_idle info fig s t hto
      obtain ⟨s', h1, h2, h3⟩ :=
        ih { s with nIntervals := s.nIntervals + 1, timerDisabled := true }
          (fun e he => hticks e (by simp [he])) hto
      refine ⟨s', by simp [run, hstep, h1], h2, fun _ => ?_⟩
      rcases es with _ | ⟨e', es'⟩
      · have h4 : ({ s with nIntervals := s.nIntervals + 1, timerDisabled := true } : PState) = s' := by
          simpa [run] using h1
        rw [← h4]
      · exact h3 (by simp)

lemma run_append (info : SliceInfo) (fig : FigEnv) (l1 l2 : List Event) :
    ∀ s : PState, run info fig s (l1 ++ l2) =
      ((run info fig (run info fig s l1).1 l2).1,
       (run info fig s l1).2 ++ (run info fig (run info fig s l1).1 l2).2) := by
  induction l1 with
  | nil => intro s; simp [run]
  | cons e l1 ih => intro s; simp [run, ih]


lemma run_cons (info : SliceInfo) (fig : FigEnv) (s : PState) (e : Event)
    (es : List Event) :
    run info fig s (e :: es) =
      ((run info fig (step info fig s e).1 es).1,
       (step info fig s e).2.toList ++ (run info fig (step info fig s e).1 es).2) := rfl

lemma step_tick_commit_ex (info : SliceInfo) (fig : FigEnv) (s : PState) (t : ℕ)
    (h0 : s.timeout ≠ 0) (h1 : s.timeout ≤ t) (h2 : 5 ≤ s.nIntervals) :
    ∃ s' c, step info fig s (.tick t) = (s', some c) ∧
      c.index = s.sliderValue ∧ s'.timeout = 0 ∧ s'.timerDisabled = false ∧
      5 ≤ s'.nIntervals := by
  rw [step_tick_commit info fig s t h0 h1 h2]
  exact ⟨_, _, rfl, rfl, rfl, rfl, by show 5 ≤ s.nIntervals + 1; omega⟩

/-- C1: for every burst of one or more raw-index changes arriving less
than `T_drag = 200` ms apart (with the timer ticks that occur during the
burst) followed by silence (timer ticks only), the rate limiter commits
exactly one new state, whose index is the last raw index of the burst
(`finalIndex`), after which the timer is disabled with no timeout
pending (IDLE). `hwarm` states that the 5-tick startup warm-up has
already passed. -/
theorem debounce_coalesces_to_last_index
    (info : SliceInfo) (fig : FigEnv) (s : PState)
    (i1 : ℤ) (t1 : ℕ) (es : List Event) (T : ℕ) (post : List Event)
    (hburst : BurstOk (t1 + 200) es)
    (hwarm : 5 ≤ s.nIntervals)
    (hT : finalDeadline (t1 + 200) es ≤ T)
    (hpost : ∀ e ∈ post, ∃ t, e = Event.tick t)
    (hne : post ≠ []) :
    ∃ sF c, run info fig s (Event.slider i1 t1 :: es ++ Event.tick T :: post) = (sF, [c]) ∧
      c.index = finalIndex i1 es ∧
      sF.timerDisabled = true ∧ sF.timeout = 0 := by
  have hstep1 := step_slider info fig s i1 t1
  obtain ⟨s2, hb1, hb2, hb3, hb4, hb5, hb6, hb7⟩ :=
    run_burst info fig es (t1 + 200) hburst
      { s with sliderValue := i1, timeout := t1 + 200, timerDisabled := false }
      rfl (by omega) hwarm
  obtain ⟨s3, c, hc1, hc2, hc3, _, hc5⟩ :=
    step_tick_commit_ex info fig s2 T (by omega) (by omega) hb4
  obtain ⟨sF, hs1, hs2, hs3⟩ := run_silence info fig post s3 hpost hc3
  refine ⟨sF, c, ?_, ?_, hs3 hne, hs2⟩
  · have key3 : run info fig s2 (Event.tick T :: post) = (sF, [c]) := by
      rw [run_cons, hc1]
      simp [hs1]
    have key2 : run info fig
        ({ s with sliderValue := i1, timeout := t1 + 200, timerDisabled := false } : PState)
        (es ++ Event.tick T :: post) = (sF, [c]) := by
      rw [run_append, hb1]
      simpa using key3
    calc run info fig s (Event.slider i1 t1 :: es ++ Event.tick T :: post)
        = run info fig
            ({ s with sliderValue := i1, timeout := t1 + 200, timerDisabled := false } : PState)
            (es ++ Event.tick T :: post) := rfl
      _ = (sF, [c]) := key2
  · rw [hc2, hb3]

/-- Concrete info matching the spec scenario: a 10 x 20 x 30 volume,
axis 0, default spacing and origin, so local size is (30, 20, 10). -/
def infoW : SliceInfo :=
  { axis := 0, sizeX := 30, sizeY := 20, sizeZ := 10,
    offsetX := 0, offsetY := 0, offsetZ := 0,
    stepX := 1, stepY := 1, stepZ := 1,
    color := "#1f77b4", infoid := 42, thumbX := 15, thumbY := 10 }

/-- A concrete figure environment (autoranged view, default plot size). -/
def figW : FigEnv :=
  { xrange := (0, 29), yrange := (0, 19), plotW := 400, plotH := 400 }

/-- Witness for C1: the spec scenario 3 -> 3 -> 3 -> 7 at 50 ms intervals
under `T_drag = 200` ms yields exactly one commit, with index 7, and the
timer ends up disabled. -/
theorem debounce_coalesces_to_last_index_witness :
    ∃ sF c, run infoW figW
        { timeout := 0, last_index := none, infoid := none, nIntervals := 5,
          sliderValue := 3, timerDisabled := false }
        (Event.slider 3 0 ::
          [Event.slider 3 50, Event.slider 3 100, Event.slider 7 150] ++
          Event.tick 350 :: [Event.tick 450]) = (sF, [c]) ∧
      c.index = 7 ∧ sF.timerDisabled = true ∧ sF.timeout = 0 := by
  have hb : BurstOk (0 + 200)
      [Event.slider 3 50, Event.slider 3 100, Event.slider 7 150] :=
    BurstOk.slider _ _ _ _ (by norm_num)
      (BurstOk.slider _ _ _ _ (by norm_num)
        (BurstOk.slider _ _ _ _ (by norm_num) (BurstOk.nil _)))
  have h := debounce_coalesces_to_last_index infoW figW
      { timeout := 0, last_index := none, infoid := none, nIntervals := 5,
        sliderValue := 3, timerDisabled := false }
      3 0 [Event.slider 3 50, Event.slider 3 100, Event.slider 7 150] 350
      [Event.tick 450] hb (by decide) (by decide)
      (by intro e he; rw [List.mem_singleton] at he; exact ⟨450, he⟩) (by simp)
  have hidx :
      finalIndex 3 [Event.slider 3 50, Event.slider 3 100, Event.slider 7 150] = 7 := rfl
  rw [hidx] at h
  exact h

/-- C2: whenever the rate limiter commits (a timer tick with a pending,
expired timeout, after the warm-up), the published `index_changed` is
true iff the committed index differs from the previously committed
`last_index`, and `last_index` is then updated to the committed index.
`hinfo` rules out the hot-reload path (`info.infoid` changed between
commits), which cannot occur within one session: the private `infoid`
either matches the current info or nothing has been committed yet. -/
theorem commit_index_changed_iff
    (info : SliceInfo) (fig : FigEnv) (s : PState) (now : ℕ)
    (hpend : s.timeout ≠ 0) (hexp : s.timeout ≤ now) (hwarm : ¬ s.nIntervals < 5)
    (hinfo : s.infoid = some info.infoid ∨ (s.infoid = none ∧ s.last_index = none)) :
    ∃ c s', update_state info fig s now = (some c, s') ∧
      c.index = s.sliderValue ∧
      (c.index_changed = true ↔ s.last_index ≠ some c.index) ∧
      s'.last_index = some c.index := by
  have heq : update_state info fig s now =
      (some { index := s.sliderValue
              index_changed := decide (s.last_index ≠ some s.sliderValue) ||
                decide (s.infoid ≠ some info.infoid)
              xrange := computeXrange info fig
              yrange := computeYrange info fig
              zpos := info.offsetZ + (s.sliderValue : ℚ) * info.stepZ
              axis := info.axis
              color := info.color },
       { s with
          timeout := 0
          last_index :=
            if decide (s.last_index ≠ some s.sliderValue) ||
                decide (s.infoid ≠ some info.infoid) then some s.sliderValue
            else s.last_index
          infoid := some info.infoid }) := by
    rw [update_state, if_neg (not_not_intro ⟨hpend, hexp⟩), if_neg hwarm]
  refine ⟨_, _, heq, rfl, ?_, ?_⟩
  · rcases hinfo with h | ⟨h1, h2⟩
    · simp [h]
    · simp [h1, h2]
  · by_cases hc : (decide (s.last_index ≠ some s.sliderValue) ||
        decide (s.infoid ≠ some info.infoid)) = true
    · simp only [hc, if_true]
    · have h3 : s.last_index = some s.sliderValue := by
        simp only [Bool.or_eq_true, decide_eq_true_eq] at hc
        push_neg at hc
        exact hc.1
      simp [hc, h3]

/-- Witness for C2: a commit at slider value 7 with previously committed
index 3 publishes `index_changed = true` and records 7. -/
theorem commit_index_changed_iff_witness :
    ∃ c s', update_state infoW figW
        { timeout := 100, last_index := some 3, infoid := some 42, nIntervals := 6,
          sliderValue := 7, timerDisabled := false } 100 = (some c, s') ∧
      c.index = 7 ∧
      (c.index_changed = true ↔ (some 3 : Option ℤ) ≠ some c.index) ∧
      s'.last_index = some c.index :=
  commit_index_changed_iff infoW figW
    { timeout := 100, last_index := some 3, infoid := some 42, nIntervals := 6,
      sliderValue := 7, timerDisabled := false } 100
    (by decide) (by decide) (by decide) (Or.inl rfl)

/-- An image trace built by `update_image_traces` (slicer.py lines
716-772): the `source` string (data URI) and the affine placement
`x0`, `y0`, `dx`, `dy`. Constant fields (`type`, `hovertemplate`,
`hoverinfo`) are omitted. -/
structure ImTrace where
  source : String
  x0 : ℚ
  y0 : ℚ
  dx : ℚ
  dy : ℚ
  deriving Repr, DecidableEq

/-- The `server-data` store: the most recently fetched full-resolution
slice and its index (initially `index = -1`, no slice). -/
structure ServerData where
  index : ℤ
  slice : String
  deriving Repr, DecidableEq

/-- The trace-construction part of `update_image_traces`: the slice trace
and the overlay trace with their placements. On a server-data hit
(`index == server_data.index`) the full-res slice is used at native
placement; on a miss the thumbnail is used and its placement rescaled
(`dx *= size/thumbnail_size`, recentered by half a scaled pixel minus
half a native pixel). The overlay source is `overlays[index] || ''`. -/
def computeImageTraces (index : ℕ) (server : ServerData)
    (overlays : List (Option String)) (thumbnails : List String)
    (info : SliceInfo) : ImTrace × ImTrace :=
  let base : ImTrace :=
    { source := "", x0 := info.offsetX, y0 := info.offsetY,
      dx := info.stepX, dy := info.stepY }
  let overlay : ImTrace := { base with source := (overlays.getD index none).getD "" }
  let slice : ImTrace :=
    if (index : ℤ) = server.index then { base with source := server.slice }
    else
      let dxn := info.stepX * ((info.sizeX : ℚ) / (info.thumbX : ℚ))
      let dyn := info.stepY * ((info.sizeY : ℚ) / (info.thumbY : ℚ))
      { source := thumbnails.getD index "",
        x0 := info.offsetX + (1 / 2) * dxn - (1 / 2) * info.stepX,
        y0 := info.offsetY + (1 / 2) * dyn - (1 / 2) * info.stepY,
        dx := dxn, dy := dyn }
  (slice, overlay)

/-- The normalisation of the previously emitted traces in
`update_image_traces`: an empty list is replaced by two stub traces
whose `source` is `''` (the JS stubs carry only a `source` field; the
comparison reads nothing else). -/
def normalizeCurrent (current : List ImTrace) : List ImTrace :=
  if current.length = 0 then
    [{ source := "", x0 := 0, y0 := 0, dx := 0, dy := 0 },
     { source := "", x0 := 0, y0 := 0, dx := 0, dy := 0 }]
  else current

/-- `update_image_traces` (slicer.py lines 716-772): build the new
slice/overlay trace pair and return it, unless both `source` strings
equal those of the previously emitted pair, in which case return
`no_update` (`none`). -/
def update_image_traces (index : ℕ) (server : ServerData)
    (overlays : List (Option String)) (thumbnails : List String)
    (info : SliceInfo) (current : List ImTrace) : Option (ImTrace × ImTrace) :=
  let nt := computeImageTraces index server overlays thumbnails info
  let cur := normalizeCurrent current
  if (cur.get? 0).map ImTrace.source = some nt.1.source ∧
      (cur.get? 1).map ImTrace.source = some nt.2.source then none
  else some nt

/-- Concrete info for the image-trace counterexample: 4 x 4 slices,
2 x 2 thumbnails, unit spacing, zero origin. -/
def infoC3 : SliceInfo :=
  { axis := 0, sizeX := 4, sizeY := 4, sizeZ := 4,
    offsetX := 0, offsetY := 0, offsetZ := 0,
    stepX := 1, stepY := 1, stepZ := 1,
    color := "", infoid := 1, thumbX := 2, thumbY := 2 }

/-- The pair previously emitted by a recompute that missed the server
data at index 0 (thumbnail placement, rescaled geometry). -/
def curC3 : List ImTrace :=
  [(computeImageTraces 0 { index := -1, slice := "" } [none] ["a"] infoC3).1,
   (computeImageTraces 0 { index := -1, slice := "" } [none] ["a"] infoC3).2]

/-- Counterexample to C3: a full-res tile for index 0 arrives whose
encoded source happens to equal the thumbnail's; the recompute yields a
placement with different geometry (native `dx = 1` versus the
previously emitted rescaled `dx = 2`), yet the callback suppresses the
update, because only the two `source` strings are compared. -/
theorem image_traces_suppress_despite_geometry_change :
    update_image_traces 0 { index := 0, slice := "a" } [none] ["a"] infoC3 curC3 = none ∧
    (computeImageTraces 0 { index := 0, slice := "a" } [none] ["a"] infoC3).1.dx = 1 ∧
    (curC3.get? 0).map ImTrace.dx = some 2 := by
  refine ⟨by decide, rfl, ?_⟩
  have h1 : curC3.get? 0 =
      some ((computeImageTraces 0 { index := -1, slice := "" } [none] ["a"] infoC3).1) := rfl
  rw [h1, Option.map_some']
  norm_num [computeImageTraces, infoC3]

/-- C3 amended: the image-trace callback suppresses its output iff the
newly computed pair agrees with the previously emitted pair (after
empty-list normalisation) in the two `source` strings; the geometry
(`x0`, `y0`, `dx`, `dy`) is not part of the comparison. -/
theorem image_traces_suppress_iff_sources_equal
    (index : ℕ) (server : ServerData) (overlays : List (Option String))
    (thumbnails : List String) (info : SliceInfo) (current : List ImTrace) :
    update_image_traces index server overlays thumbnails info current = none ↔
      (((normalizeCurrent current).get? 0).map ImTrace.source =
        some (computeImageTraces index server overlays thumbnails info).1.source ∧
       ((normalizeCurrent current).get? 1).map ImTrace.source =
        some (computeImageTraces index server overlays thumbnails info).2.source) := by
  simp only [update_image_traces]
  split_ifs with h
  · exact iff_of_true rfl h
  · exact iff_of_false (by simp) h

/-- A scatter (line) trace built by `update_indicator_traces` (slicer.py
lines 777-852): the point lists (JS `null` separators as `none`) and the
line style. Constant post-processing fields (`type`, `mode`,
`hoverinfo`, `showlegend`) are omitted. -/
structure ScTrace where
  xs : List (Option ℚ)
  ys : List (Option ℚ)
  color : String
  width : ℚ
  deriving Repr, DecidableEq

/-- Both endpoints of a range, as scatter points. -/
def pairL (r : ℚ × ℚ) : List (Option ℚ) := [some r.1, some r.2]

/-- The per-peer branch of `update_indicator_traces`: the fixed lookup
over the six ordered (own axis, peer axis) pairs, yielding a horizontal
or vertical two-point segment at the peer's `zpos`, or nothing for any
other combination. -/
def peerTrace (ownAxis : ℤ) (st : CState) : Option ScTrace :=
  let zpos : List (Option ℚ) := [some st.zpos, some st.zpos]
  if ownAxis = 0 ∧ st.axis = 1 then
    some { xs := pairL st.xrange, ys := zpos, color := st.color, width := 1 }
  else if ownAxis = 0 ∧ st.axis = 2 then
    some { xs := zpos, ys := pairL st.xrange, color := st.color, width := 1 }
  else if ownAxis = 1 ∧ st.axis = 2 then
    some { xs := zpos, ys := pairL st.yrange, color := st.color, width := 1 }
  else if ownAxis = 1 ∧ st.axis = 0 then
    some { xs := pairL st.xrange, ys := zpos, color := st.color, width := 1 }
  else if ownAxis = 2 ∧ st.axis = 0 then
    some { xs := pairL st.yrange, ys := zpos, color := st.color, width := 1 }
  else if ownAxis = 2 ∧ st.axis = 1 then
    some { xs := zpos, ys := pairL st.yrange, color := st.color, width := 1 }
  else none

/-- The self-indicator frame of `update_indicator_traces` (lines
809-829): own color drawn in the four corners of the committed view
rectangle, with corner length `dd` = 10 percent of the mean extent,
clipped to 45 percent of the smallest extent. -/
def selfFrame (info : SliceInfo) (ts : CState) : ScTrace :=
  let fraction : ℚ := 1 / 10
  let lengthx := (info.sizeX : ℚ) * info.stepX
  let lengthy := (info.sizeY : ℚ) * info.stepY
  let lengthz := (info.sizeZ : ℚ) * info.stepZ
  let dd := fraction * (lengthx + lengthy + lengthz) / 3
  let dd := min dd ((45 / 100) * min lengthx (min lengthy lengthz))
  let x1 := ts.xrange.1
  let x2 := ts.xrange.1 + dd
  let x3 := ts.xrange.2 - dd
  let x4 := ts.xrange.2
  let y1 := ts.yrange.1
  let y2 := ts.yrange.1 + dd
  let y3 := ts.yrange.2 - dd
  let y4 := ts.yrange.2
  { xs := [some x1, some x1, some x2, none, some x3, some x4, some x4, none,
           some x4, some x4, some x3, none, some x2, some x1, some x1]
    ys := [some y2, some y1, some y1, none, some y1, some y1, some y2, none,
           some y3, some y4, some y4, none, some y4, some y4, some y3]
    color := info.color
    width := 4 }

/-- `update_indicator_traces` (slicer.py lines 777-852): one segment per
non-null peer state via `peerTrace`, a self frame if this slicer has a
color, a committed state and at least one peer segment exists, and
`no_update` (`none`) if this slicer has no committed state yet. -/
def update_indicator_traces (states : List (Option CState)) (info : SliceInfo)
    (thisState : Option CState) : Option (List ScTrace) :=
  let traces := states.filterMap (fun o => o.bind (peerTrace info.axis))
  let traces :=
    match thisState with
    | some ts =>
        if info.color ≠ "" ∧ traces ≠ [] then traces ++ [selfFrame info ts] else traces
    | none => traces
  match thisState with
  | some _ => some traces
  | none => none

/-- C4 amended: for a peer state on a different (valid) axis, the fixed
6-pair lookup yields exactly one two-point segment, horizontal or
vertical, whose constant coordinate is the peer's `zpos` and whose
varying coordinate runs between the endpoints of one of the peer's
*committed view ranges* (`xrange`/`yrange`; these equal the full
in-plane extent only when the peer's view is not zoomed in); a peer
state on the slicer's own axis or with an unexpected axis value yields
no segment; a null peer state contributes nothing to the recompute (and
the recompute never fails). -/
theorem indicator_traces_per_peer
    (info : SliceInfo) (st : CState) (states : List (Option CState))
    (thisState : Option CState)
    (hown : info.axis = 0 ∨ info.axis = 1 ∨ info.axis = 2) :
    ((st.axis = 0 ∨ st.axis = 1 ∨ st.axis = 2) → st.axis ≠ info.axis →
      ∃ tr, peerTrace info.axis st = some tr ∧
        ((tr.ys = [some st.zpos, some st.zpos] ∧
            (tr.xs = pairL st.xrange ∨ tr.xs = pairL st.yrange)) ∨
         (tr.xs = [some st.zpos, some st.zpos] ∧
            (tr.ys = pairL st.xrange ∨ tr.ys = pairL st.yrange)))) ∧
    ((st.axis = info.axis ∨ ¬(st.axis = 0 ∨ st.axis = 1 ∨ st.axis = 2)) →
      peerTrace info.axis st = none) ∧
    update_indicator_traces (none :: states) info thisState =
      update_indicator_traces states info thisState := by
  refine ⟨?_, ?_, ?_⟩
  · intro hax hne
    rcases hown with h | h | h <;> rcases hax with p | p | p <;>
      simp [peerTrace, pairL, h, p] at hne ⊢
  · intro hbad
    rcases hbad with heq | hnot
    · rcases hown with h | h | h <;> simp [peerTrace, heq, h]
    · push_neg at hnot
      simp [peerTrace, hnot.1, hnot.2.1, hnot.2.2]
  · rfl

/-- Info for the C4 witness: the spec scenario's viewer-1 (axis 1) over
the 10 x 20 x 30 volume. -/
def infoW1 : SliceInfo :=
  { infoW with axis := 1, sizeX := 30, sizeY := 10, sizeZ := 20 }

/-- Peer state for the C4 witness: viewer-0 (axis 0) committed index 4,
so `zpos = 4` with unit stepsize and zero offset. -/
def peerW : CState :=
  { index := 4, index_changed := true, xrange := (0, 29), yrange := (0, 9),
    zpos := 4, axis := 0, color := "#1f77b4" }

/-- A zoomed-in peer on axis 0: its committed `xrange = (10, 12)` is
strictly inside the volume extent of the shared x dimension. -/
def peerZoom : CState :=
  { index := 4, index_changed := true, xrange := (10, 12), yrange := (3, 5),
    zpos := 4, axis := 0, color := "#1f77b4" }

/-- Counterexample to C4: for a zoomed-in peer the indicator segment
runs between the peer's committed endpoints 10 and 12, not across the
full extent of the in-plane x dimension, which in scene coordinates is
-1/2 .. 59/2 for size 30, unit step, zero offset (the `xrangeVol` of
`update_state`); so the segment does not span the full extent of any
in-plane dimension. -/
theorem indicator_segment_clipped_to_peer_range :
    peerTrace infoW1.axis peerZoom =
      some { xs := [some 10, some 12], ys := [some 4, some 4],
             color := "#1f77b4", width := 1 } ∧
    ([some 10, some 12] : List (Option ℚ)) ≠
      [some (infoW1.offsetX - (1 / 2) * infoW1.stepX),
       some (infoW1.offsetX + ((infoW1.sizeX : ℚ) - 1 / 2) * infoW1.stepX)] := by
  constructor
  · rfl
  · norm_num [infoW1, infoW]

/-- Witness for C4 amended: viewer-1 receives viewer-0's committed state
and computes exactly one segment at `zpos = 4`. -/
theorem indicator_traces_per_peer_witness :
    ∃ tr, peerTrace infoW1.axis peerW = some tr ∧
      ((tr.ys = [some peerW.zpos, some peerW.zpos] ∧
          (tr.xs = pairL peerW.xrange ∨ tr.xs = pairL peerW.yrange)) ∨
       (tr.xs = [some peerW.zpos, some peerW.zpos] ∧
          (tr.ys = pairL peerW.xrange ∨ tr.ys = pairL peerW.yrange))) :=
  (indicator_traces_per_peer infoW1 peerW [] none
    (Or.inr (Or.inl rfl))).1 (Or.inl rfl) (by decide)

/-- A published `setpos` value: a 3-tuple (x, y, z) in scene coordinates
whose components may be non-numeric placeholders (`none`). -/
def SetPos : Type := Option ℚ × Option ℚ × Option ℚ

/-- JS `value[2 - axis]` component access on a setpos tuple; any other
index reads as `undefined` (`none`). -/
def posComp (p : SetPos) : ℤ → Option ℚ
  | 0 => p.1
  | 1 => p.2.1
  | 2 => p.2.2
  | _ => none

/-- The body of the `update_slider_value` loop for one triggered store
(slicer.py lines 541-567): skip a null value, skip a non-numeric
relevant component, skip when the rounded index equals the current one;
otherwise return the rounded index clamped into `[0, size - 1]`.
JS `Math.round` is `round` on `ℚ` (half away up). -/
def tryTrigger (info : SliceInfo) (cur : ℤ) : Option SetPos → Option ℤ
  | none => none
  | some p =>
      match posComp p (2 - info.axis) with
      | none => none
      | some pos =>
          let index := round ((pos - info.offsetZ) / info.stepZ)
          if index = cur then none
          else some (max 0 (min ((info.sizeZ : ℤ) - 1) index))

/-- `update_slider_value` (slicer.py lines 541-567): iterate over the
triggered setpos stores, returning the first applicable new slider
value, or `no_update` (`none`). -/
def update_slider_value (info : SliceInfo) (cur : ℤ) : List (Option SetPos) → Option ℤ
  | [] => none
  | tv :: rest =>
      match tryTrigger info cur tv with
      | some v => some v
      | none => update_slider_value info cur rest

/-- Counterexample to C5: axis 0 slicer with `size[2] = 10`, zero offset,
unit step, current raw index 9. A setpos at z = 15 rounds to index 15,
which differs from 9 before clamping, so the callback applies the
clamped value 9 - equal to the current index - although the claim says
an index that (after clamping) does not differ is never applied. -/
theorem setpos_applies_index_equal_after_clamp :
    update_slider_value infoW 9 [some ((none, none, some 15) : SetPos)] = some 9 := by
  norm_num [update_slider_value, tryTrigger, posComp, infoW]

/-- C5 amended: every value the setpos callback applies is the rounding
of `(pos - offset) / stepsize` of some triggered tuple's relevant
numeric component, clamped into `[0, size - 1]`, and the *unclamped*
rounded index differs from the current raw index (the comparison
precedes clamping); null tuples and non-numeric components are skipped. -/
theorem setpos_applies_clamped_round
    (info : SliceInfo) (cur : ℤ) (ps : List (Option SetPos)) (v : ℤ)
    (h : update_slider_value info cur ps = some v) :
    (∃ tv ∈ ps, ∃ p pos, tv = some p ∧ posComp p (2 - info.axis) = some pos ∧
        round ((pos - info.offsetZ) / info.stepZ) ≠ cur ∧
        v = max 0 (min ((info.sizeZ : ℤ) - 1)
          (round ((pos - info.offsetZ) / info.stepZ)))) ∧
    (∀ p : SetPos, posComp p (2 - info.axis) = none →
      update_slider_value info cur (some p :: ps) = update_slider_value info cur ps) := by
  refine ⟨?_, ?_⟩
  · induction ps with
    | nil => simp [update_slider_value] at h
    | cons tv rest ih =>
        cases htv : tryTrigger info cur tv with
        | some w =>
            simp only [update_slider_value, htv, Option.some.injEq] at h
            subst h
            rcases tv with _ | p
            · simp [tryTrigger] at htv
            · cases hpc : posComp p (2 - info.axis) with
              | none => simp [tryTrigger, hpc] at htv
              | some pos =>
                  simp only [tryTrigger, hpc] at htv
                  by_cases hr : round ((pos - info.offsetZ) / info.stepZ) = cur
                  · rw [if_pos hr] at htv
                    exact absurd htv (by simp)
                  · rw [if_neg hr] at htv
                    exact ⟨some p, by simp, p, pos, rfl, hpc, hr,
                      (Option.some.inj htv).symm⟩
        | none =>
            simp only [update_slider_value, htv] at h
            obtain ⟨tv', htv', hrest⟩ := ih h
            exact ⟨tv', List.mem_cons_of_mem _ htv', hrest⟩
  · intro p hp
    simp [update_slider_value, tryTrigger, hp]

/-- Witness for C5 amended: a setpos at z = 4 with current index 2
applies the clamped rounding 4. -/
theorem setpos_applies_clamped_round_witness :
    ∃ tv ∈ [some ((none, none, some 4) : SetPos)], ∃ p pos, tv = some p ∧
      posComp p (2 - infoW.axis) = some pos ∧
      round ((pos - infoW.offsetZ) / infoW.stepZ) ≠ 2 ∧
      (4 : ℤ) = max 0 (min ((infoW.sizeZ : ℤ) - 1)
        (round ((pos - infoW.offsetZ) / infoW.stepZ))) :=
  (setpos_applies_clamped_round infoW 2 [some ((none, none, some 4) : SetPos)] 4
    (by norm_num [update_slider_value, tryTrigger, posComp, infoW])).1

/-- A 3D volume (zyx order): shape plus a sample function. Values are
the scalar samples (floats after `astype(np.float32)`). -/
structure Volume3 where
  d0 : ℕ
  d1 : ℕ
  d2 : ℕ
  at3 : ℕ → ℕ → ℕ → ℚ

/-- A 2D float array: shape plus a sample function. -/
structure Arr2 where
  rows : ℕ
  cols : ℕ
  at2 : ℕ → ℕ → ℚ

/-- A 2D uint8 array (entries in 0..255 after the clamp-and-cast). -/
structure Arr2u where
  rows : ℕ
  cols : ℕ
  at2 : ℕ → ℕ → ℕ

/-- The size of the volume along a given axis (`volume.shape[axis]`). -/
def sizeAlong (vol : Volume3) : ℕ → ℕ
  | 0 => vol.d0
  | 1 => vol.d1
  | 2 => vol.d2
  | _ => 0

/-- numpy's effective row for an integer index: negative indices count
from the end. -/
def effIdx (d : ℕ) (i : ℤ) : ℕ := if i < 0 then (i + d).toNat else i.toNat

/-- The sampling part of `_slice` (slicer.py lines 353-364):
`volume[tuple(indices)]` with `indices[axis] = index`. numpy raises
`IndexError` (modelled as `none`) iff the integer index is outside
`[-shape[axis], shape[axis])`; negative indices count from the end. -/
def npSlice (vol : Volume3) (axis : ℕ) (index : ℤ) : Option Arr2 :=
  match axis with
  | 0 => if -(vol.d0 : ℤ) ≤ index ∧ index < (vol.d0 : ℤ) then
      some { rows := vol.d1, cols := vol.d2,
             at2 := fun y x => vol.at3 (effIdx vol.d0 index) y x }
    else none
  | 1 => if -(vol.d1 : ℤ) ≤ index ∧ index < (vol.d1 : ℤ) then
      some { rows := vol.d0, cols := vol.d2,
             at2 := fun z x => vol.at3 z (effIdx vol.d1 index) x }
    else none
  | 2 => if -(vol.d2 : ℤ) ≤ index ∧ index < (vol.d2 : ℤ) then
      some { rows := vol.d0, cols := vol.d1,
             at2 := fun z y => vol.at3 z y (effIdx vol.d2 index) }
    else none
  | _ => none

/-- The contrast-limit part of `_slice` (slicer.py lines 360-364):
`clim = min(clim), max(clim)`, then
`im = (im - clim[0]) * (255 / (clim[1] - clim[0]))`, clamp to [0, 255],
`astype(np.uint8)` (truncation, i.e. floor on the clamped nonnegative
values). When `clim[1] - clim[0] == 0` the Python float division
`255 / 0.0` raises `ZeroDivisionError`, modelled as `none`; there is no
guard in the code. -/
def rescale (im : Arr2) (clim : ℚ × ℚ) : Option Arr2u :=
  let lo := min clim.1 clim.2
  let hi := max clim.1 clim.2
  if hi - lo = 0 then none
  else some
    { rows := im.rows, cols := im.cols,
      at2 := fun y x =>
        let v := (im.at2 y x - lo) * (255 / (hi - lo))
        let v := if v < 0 then 0 else v
        let v := if v > 255 then 255 else v
        (Int.floor v).toNat }

/-- `_slice(index, clim)`: sample the hyperplane, then rescale. -/
def slice_op (vol : Volume3) (axis : ℕ) (index : ℤ) (clim : ℚ × ℚ) : Option Arr2u :=
  match npSlice vol axis index with
  | none => none
  | some im => rescale im clim

/-- A concrete 2 x 2 x 2 volume of constant value 3. -/
def volC6 : Volume3 := { d0 := 2, d1 := 2, d2 := 2, at3 := fun _ _ _ => 3 }

/-- C6: at `clim.hi == clim.lo` the rescale step divides by zero
(`255 / 0.0`, a Python `ZeroDivisionError`, modelled `none`) instead of
returning the all-zero uint8 image the spec requires; so does the whole
`_slice`. -/
theorem rescale_zero_clim_raises :
    rescale { rows := 2, cols := 2, at2 := fun _ _ => 3 } (5, 5) = none ∧
    slice_op volC6 0 0 (5, 5) = none := by
  constructor
  · rw [rescale]; norm_num
  · have h : slice_op volC6 0 0 (5, 5) =
        rescale { rows := volC6.d1, cols := volC6.d2,
                  at2 := fun y x => volC6.at3 (effIdx volC6.d0 0) y x } (5, 5) := rfl
    rw [h, rescale]; norm_num

/-- The spec-scenario volume: shape (10, 20, 30). -/
def volC8 : Volume3 := { d0 := 10, d1 := 20, d2 := 30, at3 := fun _ _ _ => 0 }

/-- Counterexample to C8: index -1 is outside `[0, shape[axis])` but
numpy accepts it (it selects the last slice), so `slice` does not fail
there, contradicting the claimed "if and only if". -/
theorem slice_accepts_negative_index :
    npSlice volC8 0 (-1) =
      some { rows := volC8.d1, cols := volC8.d2,
             at2 := fun y x => volC8.at3 (effIdx volC8.d0 (-1)) y x } ∧
    effIdx volC8.d0 (-1) = 9 := ⟨rfl, rfl⟩

/-- C8 amended: `slice(volume, axis, index)` fails with `IndexError` iff
`index` is outside `[-size[axis], size[axis])` (numpy semantics:
negative indices count from the end); in particular on a 10 x 20 x 30
volume with axis 0, index 5 yields a 20 x 30 array and index 10 fails. -/
theorem slice_fails_iff_outside_numpy_range
    (vol : Volume3) (axis : ℕ) (index : ℤ) (haxis : axis < 3) :
    (npSlice vol axis index = none ↔
      (index < -(sizeAlong vol axis : ℤ) ∨ (sizeAlong vol axis : ℤ) ≤ index)) ∧
    (slice_op volC8 0 5 (0, 100)).map (fun a => (a.rows, a.cols)) = some (20, 30) ∧
    npSlice volC8 0 10 = none := by
  refine ⟨?_, ?_, rfl⟩
  · interval_cases axis <;>
      · simp only [npSlice, sizeAlong]
        split_ifs with h
        · exact iff_of_false (by simp) (by omega)
        · exact iff_of_true rfl (by omega)
  · have : slice_op volC8 0 5 (0, 100) =
        rescale { rows := volC8.d1, cols := volC8.d2,
                  at2 := fun y x => volC8.at3 (effIdx volC8.d0 5) y x } (0, 100) := rfl
    rw [this, rescale]
    norm_num [volC8]

/-- Witness for C8 amended: the iff evaluated at the scenario inputs. -/
theorem slice_fails_iff_outside_numpy_range_witness :
    ((npSlice volC8 0 10 = none ↔
      ((10 : ℤ) < -(sizeAlong volC8 0 : ℤ) ∨ (sizeAlong volC8 0 : ℤ) ≤ 10)) ∧
     (slice_op volC8 0 5 (0, 100)).map (fun a => (a.rows, a.cols)) = some (20, 30) ∧
     npSlice volC8 0 10 = none) ∧
    ((10 : ℤ) < -(sizeAlong volC8 0 : ℤ) ∨ (sizeAlong volC8 0 : ℤ) ≤ 10) :=
  ⟨slice_fails_iff_outside_numpy_range volC8 0 10 (by norm_num),
   Or.inr (by norm_num [sizeAlong, volC8])⟩

/-- A 3D label mask (zyx order, uint8 values after
`mask.astype(np.uint8)`). -/
structure Mask3 where
  d0 : ℕ
  d1 : ℕ
  d2 : ℕ
  at3 : ℕ → ℕ → ℕ → ℕ

/-- An RGBA colour tuple. -/
def Color : Type := ℕ × ℕ × ℕ × ℕ

/-- A coloured overlay slice (the rgba array handed to
`img_array_to_uri`; the base64 PNG encoding is a bijective wrapper and
is left as the array itself). -/
structure OvImg where
  rows : ℕ
  cols : ℕ
  at2 : ℕ → ℕ → Color

/-- `mask.shape[axis]` for the three valid axes. -/
def maskSizeAlong (mask : Mask3) : ℕ → ℕ
  | 0 => mask.d0
  | 1 => mask.d1
  | 2 => mask.d2
  | _ => 0

/-- The in-plane dimensions of a slice of the mask along an axis. -/
def maskSliceDims (mask : Mask3) : ℕ → ℕ × ℕ
  | 0 => (mask.d1, mask.d2)
  | 1 => (mask.d0, mask.d2)
  | 2 => (mask.d0, mask.d1)
  | _ => (0, 0)

/-- `mask[tuple(indices)]` with `indices[axis] = index`, as a sample
function over the two in-plane coordinates. -/
def maskSliceAt (mask : Mask3) (axis index : ℕ) : ℕ → ℕ → ℕ :=
  match axis with
  | 0 => fun a b => mask.at3 index a b
  | 1 => fun a b => mask.at3 a index b
  | 2 => fun a b => mask.at3 a b index
  | _ => fun _ _ => 0

/-- `im.max()` over a mask slice (0 on an empty slice, as numpy's max is
never taken on an empty array here since callers validate shapes). -/
def maskSliceMax (mask : Mask3) (axis index : ℕ) : ℕ :=
  let dims := maskSliceDims mask axis
  ((List.range dims.1).map (fun a =>
    ((List.range dims.2).map (fun b => maskSliceAt mask axis index a b)).foldr max 0)).foldr
    max 0

/-- The `while len(colormap) <= max_mask: colormap.append(colormap[-1])`
extension loop, as the equivalent append of repeated last colours. -/
def extendColormap (cm : List Color) (m : ℕ) : List Color :=
  cm ++ List.replicate (m + 1 - cm.length) (cm.getLastD ((0, 0, 0, 0) : Color))

/-- `mask_to_coloured_slices(mask, axis, color)` (utils.py lines
74-141), after colour normalisation: `colormap` is the caller's colour
table already normalised to RGBA 4-tuples (the hex parsing is
plotly's); the zero stub colour is prepended, and for each slice index
along the axis, a slice whose maximum label is 0 yields the absence
marker `None`, otherwise the label image is mapped through the
(extended) colormap and encoded. -/
def mask_to_coloured_slices (mask : Mask3) (axis : ℕ) (colormap : List Color) :
    List (Option OvImg) :=
  let nslices := maskSizeAlong mask axis
  let colormap := ((0, 0, 0, 0) : Color) :: colormap
  (List.range nslices).map (fun index =>
    let m := maskSliceMax mask axis index
    if m = 0 then none
    else
      let cm := extendColormap colormap m
      some { rows := (maskSliceDims mask axis).1,
             cols := (maskSliceDims mask axis).2,
             at2 := fun a b => cm.getD (maskSliceAt mask axis index a b)
               ((0, 0, 0, 0) : Color) })

lemma foldr_max_zero (l : List ℕ) (h : ∀ x ∈ l, x = 0) : l.foldr max 0 = 0 := by
  induction l with
  | nil => rfl
  | cons a l ih =>
      simp only [List.foldr_cons]
      rw [h a (by simp), ih (fun x hx => h x (by simp [hx]))]
      simp

lemma maskSliceMax_of_zero (mask : Mask3) (axis index : ℕ)
    (hzero : ∀ z y x, mask.at3 z y x = 0) : maskSliceMax mask axis index = 0 := by
  unfold maskSliceMax
  apply foldr_max_zero
  intro v hv
  simp only [List.mem_map] at hv
  obtain ⟨a, _, rfl⟩ := hv
  apply foldr_max_zero
  intro v hv
  simp only [List.mem_map] at hv
  obtain ⟨b, _, rfl⟩ := hv
  rcases axis with _ | _ | _ | axis <;> simp [maskSliceAt, hzero]

/-- C9: an identically-zero mask yields a list of absence markers of
length `mask.shape[axis]`; more generally any slice whose maximum label
is 0 yields the absence marker rather than an encoded image. -/
theorem overlay_zero_mask_all_absent
    (mask : Mask3) (axis : ℕ) (colormap : List Color)
    (hzero : ∀ z y x, mask.at3 z y x = 0) :
    mask_to_coloured_slices mask axis colormap =
      List.replicate (maskSizeAlong mask axis) none ∧
    (∀ (mask' : Mask3) (axis' index : ℕ) (cm : List Color),
      maskSliceMax mask' axis' index = 0 → index < maskSizeAlong mask' axis' →
      (mask_to_coloured_slices mask' axis' cm).get? index = some none) := by
  constructor
  · unfold mask_to_coloured_slices
    rw [List.eq_replicate_iff]
    constructor
    · simp
    · intro b hb
      simp only [List.mem_map, List.mem_range] at hb
      obtain ⟨i, _, rfl⟩ := hb
      rw [maskSliceMax_of_zero mask axis i hzero]
      simp
  · intro mask' axis' index cm hmax hidx
    unfold mask_to_coloured_slices
    rw [List.get?_map, List.get?_range hidx]
    simp [hmax]

/-- The spec-scenario mask: an all-false (10, 20, 30) mask. -/
def maskW : Mask3 := { d0 := 10, d1 := 20, d2 := 30, at3 := fun _ _ _ => 0 }

/-- Witness for C9: the all-false (10, 20, 30) mask over axis 2 yields a
list of 30 absence markers. -/
theorem overlay_zero_mask_all_absent_witness :
    mask_to_coloured_slices maskW 2 [((255, 0, 0, 100) : Color)] =
      List.replicate 30 none :=
  (overlay_zero_mask_all_absent maskW 2 [((255, 0, 0, 100) : Color)]
    (fun _ _ _ => rfl)).1

/-- `_thumbnail_size_from_scalar(image_size, ref_size)` (utils.py lines
18-22): the requested bounding box handed to Pillow. The Python float
division followed by `int(...)` truncation is exact natural division
here (all quantities nonnegative). Note the box pins the *shorter*
image side to `ref_size` and stretches the longer side. -/
def thumbnail_size_from_scalar (size : ℕ × ℕ) (ref : ℕ) : ℕ × ℕ :=
  if size.2 < size.1 then ((ref * size.1) / size.2, ref)
  else (ref, (ref * size.2) / size.1)

/-- Pillow's rounding helper inside `Image.thumbnail`:
`max(min(floor(number), ceil(number), key=key), 1)` — the neighbour
with the smaller key wins, floor preferred on ties, never below 1. -/
def round_aspect (number : ℚ) (key : ℤ → ℚ) : ℤ :=
  max (if key ⌊number⌋ ≤ key ⌈number⌉ then ⌊number⌋ else ⌈number⌉) 1

/-- The size computation of Pillow's `Image.thumbnail(box)` (called by
`img_array_to_uri` and simulated by `get_thumbnail_size`), modelled from
Pillow's implementation with exact rationals in place of floats: a box
covering the image leaves the size unchanged; otherwise the image is
scaled to fit the box, the free dimension rounded via `round_aspect` to
best preserve the aspect ratio. -/
def pil_thumbnail_size (w h : ℕ) (box : ℕ × ℕ) : ℕ × ℕ :=
  let x := box.1
  let y := box.2
  if w ≤ x ∧ h ≤ y then (w, h)
  else
    let aspect : ℚ := (w : ℚ) / (h : ℚ)
    if aspect ≤ (x : ℚ) / (y : ℚ) then
      ((round_aspect ((y : ℚ) * aspect) (fun n => |aspect - (n : ℚ) / (y : ℚ)|)).toNat, y)
    else
      (x, (round_aspect ((x : ℚ) / aspect)
        (fun n => if n = 0 then 0 else |aspect - (x : ℚ) / (n : ℚ)|)).toNat)

/-- `get_thumbnail_size(size, ref_size)` (utils.py lines 51-60): build a
zero image of the given (w, h) size (the numpy array shape is reversed,
so the Pillow image size is exactly `size`), then simulate
`img_pil.thumbnail(...)` and report the resulting size. -/
def get_thumbnail_size (size : ℕ × ℕ) (ref : ℕ) : ℕ × ℕ :=
  pil_thumbnail_size size.1 size.2 (thumbnail_size_from_scalar size ref)

/-- Counterexample to C7: downscaling a 64 x 32 image with target 16
yields 32 x 16 — the *shorter* side equals the target; the longer side
is 32, not 16. (The repo's own test asserts
`get_thumbnail_size((50, 100), 16) == (16, 32)`, same behaviour.) -/
theorem thumbnail_longer_side_not_target :
    get_thumbnail_size (64, 32) 16 = (32, 16) ∧
    max (get_thumbnail_size (64, 32) 16).1 (get_thumbnail_size (64, 32) 16).2 ≠ 16 := by
  have h : get_thumbnail_size (64, 32) 16 = (32, 16) := by
    rw [get_thumbnail_size, thumbnail_size_from_scalar]
    norm_num
    rw [pil_thumbnail_size]
    norm_num
    rw [round_aspect]
    norm_num
    rfl
  exact ⟨h, by rw [h]; norm_num⟩

lemma cast_div_lt_add_one (a b : ℕ) (hb : 0 < b) :
    (a : ℚ) / (b : ℚ) < ((a / b : ℕ) : ℚ) + 1 := by
  have h1 : b * (a / b) + a % b = a := Nat.div_add_mod a b
  have h2 : a % b < b := Nat.mod_lt a hb
  have h3 : a < (a / b + 1) * b := by
    calc a = b * (a / b) + a % b := h1.symm
    _ < b * (a / b) + b := by omega
    _ = (a / b + 1) * b := by ring
  have hbq : (0 : ℚ) < (b : ℚ) := by exact_mod_cast hb
  rw [div_lt_iff hbq]
  exact_mod_cast h3

lemma round_aspect_int (r : ℤ) (key : ℤ → ℚ) (hr : 1 ≤ r) :
    round_aspect (r : ℚ) key = r := by
  unfold round_aspect
  rw [Int.floor_intCast, Int.ceil_intCast]
  simp [max_eq_left hr]

lemma round_aspect_cases (number : ℚ) (key : ℤ → ℚ) (r : ℤ) (hr : 1 ≤ r)
    (hlo : (r : ℚ) - 1 < number) (hhi : number ≤ (r : ℚ)) :
    round_aspect number key = r ∨ (2 ≤ r ∧ round_aspect number key = r - 1) := by
  rcases eq_or_lt_of_le hhi with heq | hlt
  · left
    rw [heq]
    exact round_aspect_int r key hr
  · have hf : ⌊number⌋ = r - 1 := by
      rw [Int.floor_eq_iff]
      constructor
      · push_cast
        linarith
      · push_cast
        linarith
    have hc : ⌈number⌉ = r := by
      rw [Int.ceil_eq_iff]
      constructor
      · push_cast
        linarith
      · exact le_of_lt hlt
    unfold round_aspect
    rw [hf, hc]
    by_cases hkey : key (r - 1) ≤ key r
    · rw [if_pos hkey]
      rcases lt_or_le r 2 with hr2 | hr2
      · left
        have hr1 : r = 1 := by omega
        subst hr1
        decide
      · right
        exact ⟨hr2, max_eq_left (by omega)⟩
    · rw [if_neg hkey]
      left
      exact max_eq_left hr

lemma pil_min_side_wide (w h ref : ℕ) (h1 : 1 ≤ ref) (hh : ref ≤ h) (hcmp : h < w) :
    min (pil_thumbnail_size w h ((ref * w) / h, ref)).1
        (pil_thumbnail_size w h ((ref * w) / h, ref)).2 = ref ∨
    min (pil_thumbnail_size w h ((ref * w) / h, ref)).1
        (pil_thumbnail_size w h ((ref * w) / h, ref)).2 = ref - 1 := by
  have hhpos : 0 < h := by omega
  have hwpos : 0 < w := by omega
  have hhq : (0 : ℚ) < (h : ℚ) := by exact_mod_cast hhpos
  have hwq : (0 : ℚ) < (w : ℚ) := by exact_mod_cast hwpos
  have hrefq : (0 : ℚ) < (ref : ℚ) := by exact_mod_cast h1
  set bx := (ref * w) / h with hbxdef
  have hbx_ge : ref ≤ bx := by
    have hmono : (ref * h) / h ≤ (ref * w) / h :=
      Nat.div_le_div_right (Nat.mul_le_mul_left ref (le_of_lt hcmp))
    rwa [Nat.mul_div_cancel _ hhpos] at hmono
  have hbxq_le : (bx : ℚ) ≤ (ref : ℚ) * ((w : ℚ) / (h : ℚ)) := by
    have hc : ((bx : ℕ) : ℚ) ≤ ((ref * w : ℕ) : ℚ) / ((h : ℕ) : ℚ) := by
      rw [hbxdef]
      exact Nat.cast_div_le
    push_cast at hc
    rw [mul_div_assoc] at hc
    exact hc
  have hbxq_gt : (ref : ℚ) * ((w : ℚ) / (h : ℚ)) < (bx : ℚ) + 1 := by
    have hc := cast_div_lt_add_one (ref * w) h hhpos
    push_cast at hc
    rw [mul_div_assoc] at hc
    exact hc
  by_cases hearly : w ≤ bx ∧ h ≤ ref
  · have hres : pil_thumbnail_size w h (bx, ref) = (w, h) := by
      simp only [pil_thumbnail_size]
      rw [if_pos hearly]
    rw [hres]
    left
    have hrh : ref = h := le_antisymm hh hearly.2
    simp only [min_eq_right (le_of_lt hcmp)]
    omega
  · by_cases hbr : (w : ℚ) / (h : ℚ) ≤ (bx : ℚ) / (ref : ℚ)
    · -- the box is exactly proportional: ref * aspect = bx
      have heq : (ref : ℚ) * ((w : ℚ) / (h : ℚ)) = (bx : ℚ) := by
        have e1 : (w : ℚ) / (h : ℚ) * (ref : ℚ) ≤ (bx : ℚ) := (le_div_iff hrefq).mp hbr
        rw [mul_comm] at e1
        exact le_antisymm e1 hbxq_le
      have hres : pil_thumbnail_size w h (bx, ref) =
          ((round_aspect ((ref : ℚ) * ((w : ℚ) / (h : ℚ)))
            (fun n => |(w : ℚ) / (h : ℚ) - (n : ℚ) / (ref : ℚ)|)).toNat, ref) := by
        simp only [pil_thumbnail_size]
        rw [if_neg hearly, if_pos hbr]
      have hbx1 : (1 : ℤ) ≤ (bx : ℤ) := by exact_mod_cast le_trans h1 hbx_ge
      have harg : (ref : ℚ) * ((w : ℚ) / (h : ℚ)) = ((bx : ℤ) : ℚ) := by
        push_cast
        exact heq
      rw [hres, harg, round_aspect_int _ _ hbx1]
      left
      omega
    · -- strictly thinner box: Pillow recomputes the height
      have hres : pil_thumbnail_size w h (bx, ref) =
          (bx, (round_aspect ((bx : ℚ) / ((w : ℚ) / (h : ℚ)))
            (fun n => if n = 0 then 0
              else |(w : ℚ) / (h : ℚ) - (bx : ℚ) / (n : ℚ)|)).toNat) := by
        simp only [pil_thumbnail_size]
        rw [if_neg hearly, if_neg hbr]
      have haq : (0 : ℚ) < (w : ℚ) / (h : ℚ) := by positivity
      have hstrict : (bx : ℚ) < (ref : ℚ) * ((w : ℚ) / (h : ℚ)) := by
        rcases lt_or_eq_of_le hbxq_le with hlt | heq2
        · exact hlt
        · exfalso
          apply hbr
          rw [le_div_iff hrefq, mul_comm]
          exact le_of_eq heq2.symm
      have hnum_hi : (bx : ℚ) / ((w : ℚ) / (h : ℚ)) ≤ (ref : ℚ) := by
        rw [div_le_iff haq]
        exact le_of_lt hstrict
      have hnum_lo : (ref : ℚ) - 1 < (bx : ℚ) / ((w : ℚ) / (h : ℚ)) := by
        rw [lt_div_iff haq]
        have hwh1 : (1 : ℚ) < (w : ℚ) / (h : ℚ) := by
          rw [lt_div_iff hhq, one_mul]
          exact_mod_cast hcmp
        nlinarith [hbxq_gt]
      have hr1 : (1 : ℤ) ≤ (ref : ℤ) := by exact_mod_cast h1
      rcases round_aspect_cases ((bx : ℚ) / ((w : ℚ) / (h : ℚ)))
          (fun n => if n = 0 then 0 else |(w : ℚ) / (h : ℚ) - (bx : ℚ) / (n : ℚ)|)
          (ref : ℤ) hr1 (by push_cast; exact hnum_lo) (by push_cast; exact hnum_hi)
        with hx | ⟨hr2, hx⟩
      · rw [hres, hx]
        left
        simp only []
        omega
      · rw [hres, hx]
        right
        simp only []
        omega

lemma pil_min_side_tall (w h ref : ℕ) (h1 : 1 ≤ ref) (hw : ref ≤ w) (hcmp : w ≤ h) :
    min (pil_thumbnail_size w h (ref, (ref * h) / w)).1
        (pil_thumbnail_size w h (ref, (ref * h) / w)).2 = ref ∨
    min (pil_thumbnail_size w h (ref, (ref * h) / w)).1
        (pil_thumbnail_size w h (ref, (ref * h) / w)).2 = ref - 1 := by
  have hwpos : 0 < w := by omega
  have hhpos : 0 < h := by omega
  have hhq : (0 : ℚ) < (h : ℚ) := by exact_mod_cast hhpos
  have hwq : (0 : ℚ) < (w : ℚ) := by exact_mod_cast hwpos
  set b2 := (ref * h) / w with hb2def
  have hb2_ge : ref ≤ b2 := by
    have hmono : (ref * w) / w ≤ (ref * h) / w :=
      Nat.div_le_div_right (Nat.mul_le_mul_left ref hcmp)
    rwa [Nat.mul_div_cancel _ hwpos] at hmono
  have hb2pos : 0 < b2 := lt_of_lt_of_le h1 hb2_ge
  have hb2q : (0 : ℚ) < (b2 : ℚ) := by exact_mod_cast hb2pos
  have hb2q_le : (b2 : ℚ) ≤ (ref : ℚ) * ((h : ℚ) / (w : ℚ)) := by
    have hc : ((b2 : ℕ) : ℚ) ≤ ((ref * h : ℕ) : ℚ) / ((w : ℕ) : ℚ) := by
      rw [hb2def]
      exact Nat.cast_div_le
    push_cast at hc
    rw [mul_div_assoc] at hc
    exact hc
  have hb2q_gt : (ref : ℚ) * ((h : ℚ) / (w : ℚ)) < (b2 : ℚ) + 1 := by
    have hc := cast_div_lt_add_one (ref * h) w hwpos
    push_cast at hc
    rw [mul_div_assoc] at hc
    exact hc
  by_cases hearly : w ≤ ref ∧ h ≤ b2
  · have hres : pil_thumbnail_size w h (ref, b2) = (w, h) := by
      simp only [pil_thumbnail_size]
      rw [if_pos hearly]
    rw [hres]
    left
    simp only [min_eq_left hcmp]
    omega
  · have hcond : (w : ℚ) / (h : ℚ) ≤ (ref : ℚ) / (b2 : ℚ) := by
      rw [div_le_div_iff hhq hb2q]
      have hn : b2 * w ≤ ref * h := by
        rw [hb2def]
        exact Nat.div_mul_le_self (ref * h) w
      rw [Nat.mul_comm b2 w] at hn
      exact_mod_cast hn
    have hres : pil_thumbnail_size w h (ref, b2) =
        ((round_aspect ((b2 : ℚ) * ((w : ℚ) / (h : ℚ)))
          (fun n => |(w : ℚ) / (h : ℚ) - (n : ℚ) / (b2 : ℚ)|)).toNat, b2) := by
      simp only [pil_thumbnail_size]
      rw [if_neg hearly, if_pos hcond]
    have hnum_hi : (b2 : ℚ) * ((w : ℚ) / (h : ℚ)) ≤ (ref : ℚ) := by
      have e1 : (b2 : ℚ) * (w : ℚ) ≤ (ref : ℚ) * (h : ℚ) := by
        have hn : b2 * w ≤ ref * h := by
          rw [hb2def]
          exact Nat.div_mul_le_self (ref * h) w
        exact_mod_cast hn
      rw [mul_div_assoc']
      rw [div_le_iff hhq]
      exact e1
    have hnum_lo : (ref : ℚ) - 1 < (b2 : ℚ) * ((w : ℚ) / (h : ℚ)) := by
      have k1 : (ref : ℚ) * (h : ℚ) < ((b2 : ℚ) + 1) * (w : ℚ) := by
        have := hb2q_gt
        rw [mul_div_assoc'] at this
        rw [div_lt_iff hwq] at this
        linarith
      have hwh : (w : ℚ) ≤ (h : ℚ) := by exact_mod_cast hcmp
      rw [mul_div_assoc']
      rw [lt_div_iff hhq]
      nlinarith
    have hr1 : (1 : ℤ) ≤ (ref : ℤ) := by exact_mod_cast h1
    rcases round_aspect_cases ((b2 : ℚ) * ((w : ℚ) / (h : ℚ)))
        (fun n => |(w : ℚ) / (h : ℚ) - (n : ℚ) / (b2 : ℚ)|)
        (ref : ℤ) hr1 (by push_cast; exact hnum_lo) (by push_cast; exact hnum_hi)
      with hx | ⟨hr2, hx⟩
    · rw [hres, hx]
      left
      simp only []
      omega
    · rw [hres, hx]
      right
      simp only []
      omega

/-- C7 amended: for every source size and every target not exceeding
either source dimension, `get_thumbnail_size` returns a size whose
*shorter* side equals the target or falls one pixel below it (Pillow's
aspect rounding); the target bounds the shorter edge, not the longer
one. -/
theorem get_thumbnail_size_shorter_side (w h ref : ℕ)
    (h1 : 1 ≤ ref) (hw : ref ≤ w) (hh : ref ≤ h) :
    min (get_thumbnail_size (w, h) ref).1 (get_thumbnail_size (w, h) ref).2 = ref ∨
    min (get_thumbnail_size (w, h) ref).1 (get_thumbnail_size (w, h) ref).2 = ref - 1 := by
  rw [get_thumbnail_size, thumbnail_size_from_scalar]
  by_cases hcmp : h < w
  · rw [if_pos hcmp]
    exact pil_min_side_wide w h ref h1 hh hcmp
  · rw [if_neg hcmp]
    exact pil_min_side_tall w h ref h1 hw (not_lt.mp hcmp)

/-- Witness for C7 amended: the repo's own test case (50, 100) with
target 16 yields (16, 32) - shorter side 16. -/
theorem get_thumbnail_size_shorter_side_witness :
    min (get_thumbnail_size (50, 100) 16).1 (get_thumbnail_size (50, 100) 16).2 = 16 ∨
    min (get_thumbnail_size (50, 100) 16).1 (get_thumbnail_size (50, 100) 16).2 = 16 - 1 :=
  get_thumbnail_size_shorter_side 50 100 16 (by norm_num) (by norm_num) (by norm_num)

/-- The thumbnail-parameter normalisation in `VolumeSlicer.__init__`
(slicer.py lines 178-192). The Python value is a bool or an int
(`isinstance` checked); `not thumbnail` catches `False` and `0`,
`thumbnail is True` selects the default 32, and an int is dropped to
`None` when it reaches the maximum volume dimension or is
nonpositive. `none` is the stored `_thumbnail_param = None`. -/
def normalizeThumbnailParam (thumbnail : Bool ⊕ ℤ) (maxShape : ℕ) : Option ℤ :=
  match thumbnail with
  | .inl b => if b then some 32 else none
  | .inr i =>
      if i = 0 then none
      else if (maxShape : ℤ) ≤ i then none
      else if i ≤ 0 then none
      else some i

/-- The stored `slice_info["thumbnail_size"]` (slicer.py lines 223-230):
the full in-plane size when the thumbnail tier is off, else the
simulated Pillow size. -/
def storedThumbnailSize (param : Option ℤ) (size2 : ℕ × ℕ) : ℕ × ℕ :=
  match param with
  | none => size2
  | some t => get_thumbnail_size size2 t.toNat

/-- Whether `_create_server_callbacks` registers the full-resolution
`upload_requested_slice` callback (slicer.py lines 478-491): only when
`_thumbnail_param is not None`. -/
def serverFullResRegistered (param : Option ℤ) : Bool := param.isSome

/-- C10: an integer thumbnail parameter that is nonpositive or at least
the maximum volume dimension is normalised exactly like
`thumbnail=False`: the stored parameter is `None`, the stored thumbnail
size is the full in-plane slice size, and the server-side full-res
callback is not registered. -/
theorem thumbnail_out_of_range_same_as_false
    (i : ℤ) (maxShape : ℕ) (size2 : ℕ × ℕ)
    (h : i ≤ 0 ∨ (maxShape : ℤ) ≤ i) :
    normalizeThumbnailParam (.inr i) maxShape =
      normalizeThumbnailParam (.inl false) maxShape ∧
    normalizeThumbnailParam (.inr i) maxShape = none ∧
    storedThumbnailSize (normalizeThumbnailParam (.inr i) maxShape) size2 = size2 ∧
    serverFullResRegistered (normalizeThumbnailParam (.inr i) maxShape) = false := by
  have hn : normalizeThumbnailParam (.inr i) maxShape = none := by
    simp only [normalizeThumbnailParam]
    split_ifs with h1 h2 h3
    · rfl
    · rfl
    · rfl
    · omega
  rw [hn]
  exact ⟨rfl, rfl, rfl, rfl⟩

/-- Witness for C10: `thumbnail=102` on a volume whose maximum dimension
is 100 behaves like `thumbnail=False` (the repo's own test asserts the
resulting 100 x 100 thumbnail size). -/
theorem thumbnail_out_of_range_same_as_false_witness :
    normalizeThumbnailParam (.inr 102) 100 =
      normalizeThumbnailParam (.inl false) 100 ∧
    normalizeThumbnailParam (.inr 102) 100 = none ∧
    storedThumbnailSize (normalizeThumbnailParam (.inr 102) 100) (100, 100) = (100, 100) ∧
    serverFullResRegistered (normalizeThumbnailParam (.inr 102) 100) = false :=
  thumbnail_out_of_range_same_as_false 102 100 (100, 100) (Or.inr (by norm_num))
